import Mathlib

/-
  Verification development for the AI-Agent-Flask request-routing workflow.

  Shallow embedding of:
  - src/langgraphagenticai/nodes/mcp_selector_node.py  (MCPServerSelectorNode)
  - src/langgraphagenticai/nodes/mcp_executor_node.py  (MCPExecutorNode)
  - src/langgraphagenticai/nodes/basic_chatbot_node.py (BasicChatbotNode)
  - src/langgraphagenticai/graph/agentic_chatbot_graph.py (AgenticChatbotGraph)

  Conventions: wall-clock readings are passed explicitly as Nat parameters
  (t0 for the now() call at node entry, t1 for the now() call before the
  node returns); external calls (the language model, MCP tool discovery,
  the ReAct agent) are oracles passed as Except values, where .error e
  models the call raising an exception whose str() is e.  A node returns a
  dict of state updates; a key absent from the dict is modelled as none.
-/

namespace AgenticFlask

/-- Shapes a conversational turn can take at runtime: a LangChain message
object carrying a .content attribute (ai / human / system), a plain dict
with a "content" key (content plus its str() rendering), or a bare string
or other object whose str() rendering is the carried text. -/
inductive Msg where
  | ai (content : String)
  | human (content : String)
  | system (content : String)
  | map (content : String) (reprStr : String)
  | raw (text : String)
deriving DecidableEq, Repr

/-- Python expression `x.content if hasattr(x, "content") else str(x)`:
message objects expose .content, a dict does not (its str() is its repr),
a bare string is its own str(). -/
def Msg.contentOrStr : Msg → String
  | .ai c | .human c | .system c => c
  | .map _ r => r
  | .raw t => t

/-- Merger extraction of one message (agentic_chatbot_graph.py lines
213-218): .content attribute if present, else dict["content"] if it is a
dict with that key, else str(last_message). -/
def Msg.mergerContent : Msg → String
  | .ai c | .human c | .system c => c
  | .map c _ => c
  | .raw t => t

/-- Structured result dict stored under the mcp_responses key: either the
empty dict, the success record built by the executor, or the error record
built in the executor except-branch. -/
inductive McpResponses where
  | empty
  | success (selectedServers : List String) (toolsUsed : List String) (response : String)
  | error (message : String)
deriving DecidableEq, Repr

/-- Conversation state (state/state.py State TypedDict).  Optional fields
model keys that may be absent or set to None. -/
structure StateRec where
  messages : List Msg
  selected_servers : Option (List String)
  analysis : Option String
  mcp_responses : Option McpResponses
  start_time : Option Nat
  end_time : Option Nat
  response_time_seconds : Option Nat
deriving DecidableEq, Repr

/-- Partial state update returned by a node: none means the key is absent
from the returned dict. -/
structure NodeUpdate where
  messages : Option Msg := none
  selected_servers : Option (List String) := none
  analysis : Option String := none
  mcp_responses : Option McpResponses := none
  start_time : Option Nat := none
  end_time : Option Nat := none
  response_time_seconds : Option Nat := none
deriving DecidableEq, Repr

/-- LangGraph state update: the messages channel appends (add_messages);
every other key present in the returned dict replaces the stored value,
and absent keys are left unchanged. -/
def applyUpdate (s : StateRec) (u : NodeUpdate) : StateRec where
  messages := s.messages ++ u.messages.toList
  selected_servers :=
    match u.selected_servers with
    | some v => some v
    | none => s.selected_servers
  analysis :=
    match u.analysis with
    | some v => some v
    | none => s.analysis
  mcp_responses :=
    match u.mcp_responses with
    | some v => some v
    | none => s.mcp_responses
  start_time :=
    match u.start_time with
    | some v => some v
    | none => s.start_time
  end_time :=
    match u.end_time with
    | some v => some v
    | none => s.end_time
  response_time_seconds :=
    match u.response_time_seconds with
    | some v => some v
    | none => s.response_time_seconds

/-! Python string primitives, embedded as structural recursions over
List Char so that every definition evaluates inside the kernel. -/

/-- Boolean test that a list of characters starts with another. -/
def charsStartWith : List Char → List Char → Bool
  | [], _ => true
  | _ :: _, [] => false
  | a :: as, b :: bs => a == b && charsStartWith as bs

/-- Boolean test that needle occurs as a contiguous run inside hay. -/
def charsContain (needle : List Char) : List Char → Bool
  | [] => needle.isEmpty
  | b :: bs => charsStartWith needle (b :: bs) || charsContain needle bs

/-- Python `needle in hay` on strings: contiguous substring test. -/
def substrIn (needle hay : String) : Bool :=
  charsContain needle.data hay.data

/-- Python `s.startswith(t)`. -/
def pyStartsWith (s t : String) : Bool :=
  charsStartWith t.data s.data

/-- ASCII whitespace stripped by Python str.strip(). -/
def isPySpace (c : Char) : Bool :=
  c == ' ' || c == '\t' || c == '\n' || c == '\r' || c == '\x0b' || c == '\x0c'

/-- Python `s.strip()`: drop whitespace from both ends. -/
def pyStrip (s : String) : String :=
  ⟨((s.data.dropWhile isPySpace).reverse.dropWhile isPySpace).reverse⟩

/-- Lower-case one character (ASCII range, as for every character these
programs handle). -/
def pyLowerChar (c : Char) : Char :=
  if 65 ≤ c.toNat && c.toNat ≤ 90 then Char.ofNat (c.toNat + 32) else c

/-- Python `s.lower()`. -/
def pyLower (s : String) : String :=
  ⟨s.data.map pyLowerChar⟩

/-- Scanner for Python `s.split(sep)` with non-empty sep: walk the
characters left to right; a pending skip count consumes the tail of a
separator match; at a match emit the accumulated token and skip the rest
of the separator; otherwise accumulate the character. -/
def pySplitGo (sep : List Char) : List Char → Nat → List Char → List (List Char)
  | [], _, acc => [acc.reverse]
  | _ :: rest, skip + 1, acc => pySplitGo sep rest skip acc
  | c :: rest, 0, acc =>
    if charsStartWith sep (c :: rest) then
      acc.reverse :: pySplitGo sep rest (sep.length - 1) []
    else pySplitGo sep rest 0 (c :: acc)

/-- Python `s.split(sep)` for a non-empty separator (the empty-separator
case raises in Python and is never used by this program). -/
def pySplit (sep s : String) : List String :=
  if sep.data.isEmpty then [s]
  else (pySplitGo sep.data s.data 0 []).map (fun chars => ⟨chars⟩)

/-- Helper joining character lists with a separator in between. -/
def pyJoinChars (sep : List Char) : List (List Char) → List Char
  | [] => []
  | [x] => x
  | x :: y :: rest => x ++ sep ++ pyJoinChars sep (y :: rest)

/-- Python `sep.join(parts)`. -/
def pyJoin (sep : String) (parts : List String) : String :=
  ⟨pyJoinChars sep.data (parts.map String.data)⟩

/-- Python `list(dict.fromkeys(l))`: keep the first occurrence of each
element, preserving order (helper carrying the keys already seen). -/
def pyDedupAux (seen : List String) : List String → List String
  | [] => []
  | x :: xs => if seen.contains x then pyDedupAux seen xs else x :: pyDedupAux (x :: seen) xs

/-- Remove duplicates keeping first occurrences, as dict.fromkeys does. -/
def pyDedup (l : List String) : List String := pyDedupAux [] l

/-! Domain catalog (mcp_selector_node.py, self.server_mappings).  Only the
keyword lists are behaviourally relevant; url / server_name / description
entries of the mapping are not read by any verified path.  The duplicate
"temperature" keyword of the weather row is kept as in the source. -/

/-- Keyword catalog rows in dict insertion order. -/
def serverMappings : List (String × List String) :=
  [("restaurant",
    ["restaurant", "sushi", "food", "menu", "dining", "eat", "lunch", "dinner",
     "cuisine", "meal"]),
   ("parking",
    ["parking", "park", "spot", "garage", "lot", "vehicle", "car", "space"]),
   ("weather",
    ["weather", "temperature", "rain", "sunny", "cloudy", "climate", "forecast",
     "temperature"])]

/-- Validation list used by the structured parser
(`for server in ["restaurant", "parking", "weather"]`). -/
def knownServers : List String := ["restaurant", "parking", "weather"]

/-- Marker line tag emitted by the analysis prompt. -/
def relevantServersMarker : String := "RELEVANT_SERVERS:"

/-- Token list of one marker line: text after the marker
(`line.split("RELEVANT_SERVERS:")[1].strip()`), split on commas, each
token stripped and lower-cased. -/
def lineTokens (line : String) : List String :=
  let serversText := pyStrip ((pySplit relevantServersMarker line).getD 1 "")
  (pySplit "," serversText).map (fun s => pyLower (pyStrip s))

/-- Valid servers named by one marker line: each known server, in the
fixed order of the validation list, that occurs among the tokens. -/
def lineServers (line : String) : List String :=
  knownServers.filter (fun srv => (lineTokens line).contains srv)

/-- Scan of the analysis lines (mcp_selector_node.py lines 232-247): the
first line whose stripped form starts with the marker and yields a
non-empty valid server list decides the result; a marker line with no
valid server falls through to later lines; no such line means the
structured parse failed. -/
def findServersInLines : List String → Option (List String)
  | [] => none
  | line :: rest =>
    if pyStartsWith (pyStrip line) relevantServersMarker then
      let servers := lineServers line
      if servers.isEmpty then findServersInLines rest else some servers
    else findServersInLines rest

/-- Structured tier of _parse_server_selection: only attempted when the
marker occurs in the analysis text. -/
def structuredSelection (analysisText : String) : Option (List String) :=
  if substrIn relevantServersMarker analysisText then
    findServersInLines (pySplit "\n" analysisText)
  else none

/-- Keyword tier of _parse_server_selection (lines 254-266): for each
catalog row in order, select the row once if any of its keywords is a
substring of the lower-cased query (break after the first match), then
strip duplicates preserving order. -/
def keywordFallback (userMessage : String) : List String :=
  let userLower := pyLower userMessage
  pyDedup
    ((serverMappings.filter
        (fun row => row.2.any (fun keyword => substrIn keyword userLower))).map
      (fun row => row.1))

/-- MCPServerSelectorNode._parse_server_selection: structured tier first,
then keyword tier, then the fixed default ["restaurant"]. -/
def parseServerSelection (analysisText userMessage : String) : List String :=
  match structuredSelection analysisText with
  | some servers => servers
  | none =>
    let selectedServers := keywordFallback userMessage
    if selectedServers.isEmpty then ["restaurant"] else selectedServers

/-- Latest user message extraction (mcp_selector_node.py lines 122-129):
walk the reversed history and take the first entry exposing a .content
attribute or being a dict with a "content" key; fails closed to "".
The argument is expected already reversed. -/
def extractUserMessage : List Msg → String
  | [] => ""
  | m :: rest =>
    match m with
    | .ai c | .human c | .system c => c
    | .map c _ => c
    | .raw _ => extractUserMessage rest

/-- MCPServerSelectorNode.process.  llm models self.llm.invoke: .ok resp
is a returned response object, .error e an exception whose str() is e
raised during extraction, the model call or parsing (the whole try body).
t0 and t1 are the two now() readings. -/
def selectorProcess (llm : Except String Msg) (t0 t1 : Nat) (s : StateRec) : NodeUpdate :=
  match llm with
  | .ok resp =>
    let userMessage := extractUserMessage s.messages.reverse
    let analysisText := resp.contentOrStr
    let relevantServers := parseServerSelection analysisText userMessage
    { messages := some (.ai ("Selected servers: " ++ pyJoin ", " relevantServers))
      selected_servers := some relevantServers
      analysis := some analysisText
      start_time := some t0
      end_time := some t1
      response_time_seconds := some (t1 - t0) }
  | .error e =>
    { messages := some (.ai ("Error in server selection: " ++ e))
      selected_servers := some ["restaurant"]
      analysis := some ("Error: " ++ e)
      start_time := some t0
      end_time := some t1
      response_time_seconds := some (t1 - t0) }

/-! Executor (mcp_executor_node.py). -/

/-- Endpoint and transport descriptor of one MCP server. -/
structure ServerConfig where
  url : String
  transport : String
deriving DecidableEq, Repr

/-- Python dict assignment `d[k] = v` on an insertion-ordered dict
modelled as an association list: overwrite in place if the key exists,
else append. -/
def dictInsert (d : List (String × ServerConfig)) (k : String) (v : ServerConfig) :
    List (String × ServerConfig) :=
  if d.any (fun p => p.1 == k) then
    d.map (fun p => if p.1 == k then (k, v) else p)
  else d ++ [(k, v)]

/-- One iteration of the selected-server loop (mcp_executor_node.py lines
102-111): the three known identifiers copy their row of
self.server_configs into server_config; anything else is skipped. -/
def addServer (cfg : List (String × ServerConfig)) (server : String) :
    List (String × ServerConfig) :=
  if server == "restaurant" then
    dictInsert cfg "restaurant" ⟨"http://127.0.0.1:8002/mcp", "streamable_http"⟩
  else if server == "parking" then
    dictInsert cfg "Parking" ⟨"http://127.0.0.1:8003/mcp", "streamable_http"⟩
  else if server == "weather" then
    dictInsert cfg "Weather" ⟨"http://127.0.0.1:8004/mcp", "streamable_http"⟩
  else cfg

/-- Server configuration built for the selected servers only. -/
def buildServerConfig (selectedServers : List String) : List (String × ServerConfig) :=
  selectedServers.foldl addServer []

/-- Oracle for the executor's external calls: client.get_tools() yields
the tool names or raises, and the ReAct agent ainvoke yields the response
message list or raises. -/
structure ExecEnv where
  getTools : Except String (List String)
  agentMessages : Except String (List Msg)
deriving Repr

/-- Result dict built in the except-branch of execute_mcp_servers. -/
def executorErrorResult (e : String) (t0 t1 : Nat) : NodeUpdate :=
  { messages := some (.ai ("Error executing MCP servers: " ++ e))
    mcp_responses := some (.error e)
    start_time := some t0
    end_time := some t1
    response_time_seconds := some (t1 - t0) }

/-- MCPExecutorNode.execute_mcp_servers: read selected_servers (defaulting
to ["restaurant"]), build the per-request server configuration, return
early when it is empty, fetch tools, return early when none, run the
agent, and wrap any raised exception into the error result. -/
def executeMcpServers (env : ExecEnv) (t0 t1 : Nat) (s : StateRec) : NodeUpdate :=
  let selectedServers := s.selected_servers.getD ["restaurant"]
  let serverConfig := buildServerConfig selectedServers
  if serverConfig.isEmpty then
    { messages := some (.raw "No valid servers selected")
      mcp_responses := some .empty
      start_time := some t0
      end_time := some t1
      response_time_seconds := some (t1 - t0) }
  else
    match env.getTools with
    | .error e => executorErrorResult e t0 t1
    | .ok tools =>
      if tools.isEmpty then
        { messages := some (.raw "No tools available from selected servers")
          mcp_responses := some .empty
          start_time := some t0
          end_time := some t1
          response_time_seconds := some (t1 - t0) }
      else
        match env.agentMessages with
        | .error e => executorErrorResult e t0 t1
        | .ok respMessages =>
          let finalMessage := respMessages.getLast?.getD (.ai "No response generated")
          { messages := some finalMessage
            mcp_responses := some (.success selectedServers tools finalMessage.contentOrStr)
            start_time := some t0
            end_time := some t1
            response_time_seconds := some (t1 - t0) }

/-! Fallback responder (basic_chatbot_node.py). -/

/-- BasicChatbotNode.process success path: normalize the model reply (an
object with .content is returned as is, a dict with "content" and a bare
string are wrapped into an AIMessage).  The model call itself has no
try-block in the source, so a raising call produces no update at all and
is outside this function. -/
def basicChatbotProcess (llmResponse : Msg) (t0 t1 : Nat) (_s : StateRec) : NodeUpdate :=
  let outMessage : Msg :=
    match llmResponse with
    | .ai c => .ai c
    | .human c => .human c
    | .system c => .system c
    | .map c _ => .ai c
    | .raw t => .ai t
  { messages := some outMessage
    start_time := some t0
    end_time := some t1
    response_time_seconds := some (t1 - t0) }

/-! Response merger and route decision (agentic_chatbot_graph.py). -/

/-- Merger extraction from the messages channel (lines 210-222): the last
entry of a non-empty list through Msg.mergerContent; an empty list falls
to the stringify-anything branch, and str of an empty Python list is
"[]". -/
def mergerExtract (messages : List Msg) : String :=
  match messages.getLast? with
  | some lastMessage => lastMessage.mergerContent
  | none => "[]"

/-- Python truthiness of state.get("mcp_responses", {}): an absent key or
the empty dict is falsy, any populated dict is truthy. -/
def mcpTruthy : Option McpResponses → Bool
  | none => false
  | some .empty => false
  | some _ => true

/-- Python truthiness of mcp_responses.get("error"): only an error record
with a non-empty message string is truthy. -/
def mcpErrorTruthy : Option McpResponses → Bool
  | some (.error e) => !(e == "")
  | _ => false

/-- AgenticChatbotGraph._response_merger_node.  exc models an exception
raised inside the try body during merging itself (none on the normal
path); the source builds the same AIMessage(response_content) in both
arms of its mcp_responses branch, which the if below reproduces. -/
def responseMergerNode (exc : Option String) (t0 t1 : Nat) (s : StateRec) : NodeUpdate :=
  match exc with
  | some e =>
    { messages := some (.ai ("Error merging response: " ++ e))
      start_time := some t0
      end_time := some t1
      response_time_seconds := some (t1 - t0) }
  | none =>
    let responseContent := mergerExtract s.messages
    let finalMessage :=
      if mcpTruthy s.mcp_responses && !(mcpErrorTruthy s.mcp_responses) then
        Msg.ai responseContent
      else
        Msg.ai responseContent
    { messages := some finalMessage
      start_time := some t0
      end_time := some t1
      response_time_seconds := some (t1 - t0) }

/-- AgenticChatbotGraph._should_use_mcp: read selected_servers with
default [], and route to "use_mcp" exactly when the list is truthy and
its length is positive. -/
def shouldUseMcp (s : StateRec) : String :=
  let selectedServers := s.selected_servers.getD []
  if !selectedServers.isEmpty && decide (0 < selectedServers.length) then
    "use_mcp"
  else
    "use_fallback"

/-! Helper lemmas. -/

/-- Keeping first occurrences yields a sublist of the input. -/
lemma pyDedupAux_sublist (l : List String) : ∀ seen, (pyDedupAux seen l).Sublist l := by
  induction l with
  | nil => intro seen; simp [pyDedupAux]
  | cons x xs ih =>
    intro seen
    by_cases h : x ∈ seen
    · simpa [pyDedupAux, h] using (ih seen).cons x
    · simpa [pyDedupAux, h] using (ih (x :: seen)).cons₂ x

/-- pyDedup output is a sublist of its input. -/
lemma pyDedup_sublist (l : List String) : (pyDedup l).Sublist l :=
  pyDedupAux_sublist l []

/-- Valid-server lists from one marker line follow the fixed validation
order. -/
lemma lineServers_sublist (line : String) : (lineServers line).Sublist knownServers :=
  List.filter_sublist _

/-- Membership characterisation of the servers a marker line names. -/
lemma mem_lineServers (line : String) (d : String) :
    d ∈ lineServers line ↔ d ∈ knownServers ∧ (lineTokens line).contains d = true := by
  simp [lineServers, List.mem_filter]

/-- A successful line scan returns the valid servers of a marker line in
the list, and that result is non-empty. -/
lemma findServersInLines_spec :
    ∀ lines servers, findServersInLines lines = some servers →
      servers ≠ [] ∧ ∃ line, line ∈ lines ∧
        pyStartsWith (pyStrip line) relevantServersMarker = true ∧
        servers = lineServers line := by
  intro lines
  induction lines with
  | nil => intro servers h; simp [findServersInLines] at h
  | cons line rest ih =>
    intro servers h
    simp only [findServersInLines] at h
    by_cases hs : pyStartsWith (pyStrip line) relevantServersMarker
    · rw [if_pos hs] at h
      by_cases he : (lineServers line).isEmpty
      · rw [if_pos he] at h
        obtain ⟨hne, line2, hmem, hsw, heq⟩ := ih servers h
        exact ⟨hne, line2, List.mem_cons_of_mem _ hmem, hsw, heq⟩
      · rw [if_neg he] at h
        injection h with h
        refine ⟨?_, line, List.mem_cons_self _ _, hs, h.symm⟩
        intro hnil
        exact he (by rw [h, hnil]; rfl)
    · rw [if_neg hs] at h
      obtain ⟨hne, line2, hmem, hsw, heq⟩ := ih servers h
      exact ⟨hne, line2, List.mem_cons_of_mem _ hmem, hsw, heq⟩

/-- A successful structured parse is non-empty. -/
lemma structuredSelection_ne_nil {analysisText : String} {servers : List String}
    (h : structuredSelection analysisText = some servers) : servers ≠ [] := by
  unfold structuredSelection at h
  by_cases hm : substrIn relevantServersMarker analysisText
  · rw [if_pos hm] at h
    exact (findServersInLines_spec _ _ h).1
  · rw [if_neg hm] at h
    cases h

/-- The two-tier parse plus default never yields the empty list. -/
lemma parseServerSelection_ne_nil (analysisText userMessage : String) :
    parseServerSelection analysisText userMessage ≠ [] := by
  unfold parseServerSelection
  cases h : structuredSelection analysisText with
  | some servers => exact structuredSelection_ne_nil h
  | none =>
    by_cases he : (keywordFallback userMessage).isEmpty
    · simp [he]
    · simp only [he, if_false, Bool.false_eq_true]
      intro hnil
      rw [← List.isEmpty_iff] at hnil
      simp [hnil] at he

/-- The selector update always carries a non-empty selected list. -/
lemma selectorProcess_selected (llm : Except String Msg) (t0 t1 : Nat) (s : StateRec) :
    ∃ servers, (selectorProcess llm t0 t1 s).selected_servers = some servers ∧ servers ≠ [] := by
  cases llm with
  | ok resp =>
    exact ⟨_, rfl, parseServerSelection_ne_nil _ _⟩
  | error e => exact ⟨["restaurant"], rfl, by simp⟩

/-- Route characterisation: the service path is taken exactly for a
present, non-empty selected_servers value. -/
lemma shouldUseMcp_eq_iff (s : StateRec) :
    shouldUseMcp s = "use_mcp" ↔ ∃ l, s.selected_servers = some l ∧ l ≠ [] := by
  cases ho : s.selected_servers with
  | none => simp [shouldUseMcp, ho]
  | some l =>
    cases l with
    | nil => simp [shouldUseMcp, ho]
    | cons x xs => simp [shouldUseMcp, ho]

/-- The route decision takes one of exactly two values. -/
lemma shouldUseMcp_or (s : StateRec) :
    shouldUseMcp s = "use_mcp" ∨ shouldUseMcp s = "use_fallback" := by
  simp only [shouldUseMcp]
  split
  · exact Or.inl rfl
  · exact Or.inr rfl

/-- The fallback route implies the selected list is absent or empty. -/
lemma shouldUseMcp_fallback (s : StateRec) (h : shouldUseMcp s = "use_fallback") :
    s.selected_servers = none ∨ s.selected_servers = some [] := by
  cases ho : s.selected_servers with
  | none => exact Or.inl rfl
  | some l =>
    cases l with
    | nil => exact Or.inr rfl
    | cons x xs =>
      exfalso
      have hmcp : shouldUseMcp s = "use_mcp" :=
        (shouldUseMcp_eq_iff s).mpr ⟨x :: xs, ho, by simp⟩
      exact absurd (hmcp.symm.trans h) (by decide)

/-- The executor's returned dict never contains a selected_servers key. -/
lemma executeMcpServers_selected_none (env : ExecEnv) (t0 t1 : Nat) (s : StateRec) :
    (executeMcpServers env t0 t1 s).selected_servers = none := by
  simp only [executeMcpServers, executorErrorResult]
  split
  · rfl
  · split
    · rfl
    · split
      · rfl
      · split <;> rfl

/-- The merger's returned dict never contains a selected_servers key. -/
lemma responseMergerNode_selected_none (exc : Option String) (t0 t1 : Nat) (s : StateRec) :
    (responseMergerNode exc t0 t1 s).selected_servers = none := by
  cases exc <;> rfl

/-- The fallback responder's returned dict never contains a
selected_servers key. -/
lemma basicChatbotProcess_selected_none (resp : Msg) (t0 t1 : Nat) (s : StateRec) :
    (basicChatbotProcess resp t0 t1 s).selected_servers = none := by
  rfl

/-- Applying an update without a selected_servers key keeps the stored
value. -/
lemma applyUpdate_selected_of_none (s : StateRec) (u : NodeUpdate)
    (h : u.selected_servers = none) :
    (applyUpdate s u).selected_servers = s.selected_servers := by
  simp [applyUpdate, h]

/-! Claim theorems. -/

/-- C1.  For every outcome of the model call (a returned response or an
exception raised anywhere in the try body), the selector update carries a
non-empty selected_servers list together with an analysis string: the
selector never leaves its boundary without both. -/
theorem selector_returns_nonempty_domains (llm : Except String Msg) (t0 t1 : Nat)
    (s : StateRec) :
    ∃ servers analysisText,
      (selectorProcess llm t0 t1 s).selected_servers = some servers ∧ servers ≠ [] ∧
      (selectorProcess llm t0 t1 s).analysis = some analysisText := by
  obtain ⟨servers, hsel, hne⟩ := selectorProcess_selected llm t0 t1 s
  cases llm with
  | ok resp => exact ⟨_, _, hsel, hne, rfl⟩
  | error e => exact ⟨_, _, hsel, hne, rfl⟩

/-- C3.  The keyword fallback selects each domain at most once, in the
order domains are first selected by the catalog scan (a sublist of the
catalog order), and on the Scenario B query it yields exactly
restaurant, parking, weather. -/
theorem keyword_fallback_dedup_order (q : String) :
    (keywordFallback q).Nodup ∧ (keywordFallback q).Sublist knownServers ∧
    keywordFallback "Find me a restaurant with parking and check the weather" =
      ["restaurant", "parking", "weather"] := by
  have hsub : (keywordFallback q).Sublist knownServers := by
    simp only [keywordFallback]
    refine (pyDedup_sublist _).trans ?_
    have h3 : serverMappings.map (fun row => row.1) = knownServers := by decide
    exact h3 ▸ ((List.filter_sublist _).map _)
  refine ⟨List.Nodup.sublist hsub (by decide), hsub, by decide⟩

/-- Concrete state with no populated field, used by witnesses. -/
def emptyStateRec : StateRec :=
  { messages := [], selected_servers := none, analysis := none, mcp_responses := none,
    start_time := none, end_time := none, response_time_seconds := none }

/-- Concrete state whose selector output names the restaurant domain. -/
def sampleSelectedState : StateRec :=
  { emptyStateRec with selected_servers := some ["restaurant"] }

/-- Concrete state whose selected list names no configured domain. -/
def sampleUnknownState : StateRec :=
  { emptyStateRec with selected_servers := some ["bogus"] }

/-- C4.  The route decision returns the service route exactly when
selected_servers is a present non-empty list, returns the fallback route
in every other case, and is a function of selected_servers alone: states
agreeing on that field route identically. -/
theorem route_decision_pure_function (s : StateRec) :
    (shouldUseMcp s = "use_mcp" ↔ ∃ l, s.selected_servers = some l ∧ l ≠ []) ∧
    (shouldUseMcp s = "use_mcp" ∨ shouldUseMcp s = "use_fallback") ∧
    (∀ s2 : StateRec, s2.selected_servers = s.selected_servers →
      shouldUseMcp s2 = shouldUseMcp s) := by
  refine ⟨shouldUseMcp_eq_iff s, shouldUseMcp_or s, ?_⟩
  intro s2 h
  simp [shouldUseMcp, h]

/-- Witness for C4: the characterisation applied at a concrete state. -/
theorem route_decision_pure_function_witness :
    shouldUseMcp { emptyStateRec with selected_servers := some ["weather"] } = "use_mcp" :=
  (route_decision_pure_function _).1.mpr ⟨["weather"], rfl, by decide⟩

/-- C9.  The state updates returned by the executor, the fallback
responder and the merger contain no selected_servers key, so applying any
of them leaves the selector's value untouched. -/
theorem downstream_preserves_selected_servers (s : StateRec) (env : ExecEnv)
    (resp : Msg) (exc : Option String) (t0 t1 : Nat) :
    (applyUpdate s (executeMcpServers env t0 t1 s)).selected_servers = s.selected_servers ∧
    (applyUpdate s (basicChatbotProcess resp t0 t1 s)).selected_servers = s.selected_servers ∧
    (applyUpdate s (responseMergerNode exc t0 t1 s)).selected_servers = s.selected_servers :=
  ⟨applyUpdate_selected_of_none _ _ (executeMcpServers_selected_none env t0 t1 s),
   applyUpdate_selected_of_none _ _ (basicChatbotProcess_selected_none resp t0 t1 s),
   applyUpdate_selected_of_none _ _ (responseMergerNode_selected_none exc t0 t1 s)⟩

/-- C10.  Every state the selector step produces routes to the service
path, and the fallback branch is reachable only from a state whose
selected_servers is absent or empty. -/
theorem selector_route_always_services (llm : Except String Msg) (t0 t1 : Nat)
    (s : StateRec) :
    shouldUseMcp (applyUpdate s (selectorProcess llm t0 t1 s)) = "use_mcp" ∧
    (∀ s2 : StateRec, shouldUseMcp s2 = "use_fallback" →
      s2.selected_servers = none ∨ s2.selected_servers = some []) := by
  constructor
  · obtain ⟨servers, hsel, hne⟩ := selectorProcess_selected llm t0 t1 s
    refine (shouldUseMcp_eq_iff _).mpr ⟨servers, ?_, hne⟩
    simp [applyUpdate, hsel]
  · exact fun s2 h => shouldUseMcp_fallback s2 h

/-- Witness for C10: concrete fallback state with the route hypothesis
discharged by evaluation. -/
theorem selector_route_always_services_witness :
    shouldUseMcp emptyStateRec = "use_fallback" ∧
    (emptyStateRec.selected_servers = none ∨ emptyStateRec.selected_servers = some []) :=
  ⟨by decide,
   (selector_route_always_services (Except.error "x") 0 0 emptyStateRec).2 emptyStateRec
     (by decide)⟩

/-- An identifier outside the known catalog leaves the built server
configuration unchanged. -/
lemma addServer_unknown (cfg : List (String × ServerConfig)) (d : String)
    (h : ¬ d ∈ knownServers) : addServer cfg d = cfg := by
  simp [knownServers, not_or] at h
  simp [addServer, h.1, h.2.1, h.2.2]

/-- The selected-server fold ignores identifiers outside the catalog. -/
lemma foldl_addServer_filter (l : List String) : ∀ cfg : List (String × ServerConfig),
    l.foldl addServer cfg = (l.filter (fun d => knownServers.contains d)).foldl addServer cfg := by
  induction l with
  | nil => intro cfg; rfl
  | cons x xs ih =>
    intro cfg
    by_cases hx : x ∈ knownServers
    · have hc : (fun d => knownServers.contains d) x = true := by simpa using hx
      rw [List.filter_cons_of_pos hc]
      simp only [List.foldl_cons]
      exact ih (addServer cfg x)
    · rw [List.filter_cons_of_neg (by simpa using hx)]
      calc (x :: xs).foldl addServer cfg = xs.foldl addServer (addServer cfg x) := rfl
        _ = xs.foldl addServer cfg := by rw [addServer_unknown cfg x hx]
        _ = (xs.filter (fun d => knownServers.contains d)).foldl addServer cfg := ih cfg

/-- Failure reached inside the executor try body: the connection phase is
entered (the built configuration is non-empty) and either the discovery
call raises, or discovery yields a non-empty tool set and the reasoning
loop raises. -/
def execFailureReached (env : ExecEnv) (s : StateRec) (e : String) : Prop :=
  buildServerConfig (s.selected_servers.getD ["restaurant"]) ≠ [] ∧
  (env.getTools = Except.error e ∨
    ∃ tools, env.getTools = Except.ok tools ∧ tools ≠ [] ∧
      env.agentMessages = Except.error e)

/-- C5.  The executor is total (every branch returns an answer turn) and
every exception reached inside its try body is converted into the error
answer plus an error-tagged mcp_responses record; nothing propagates. -/
theorem executor_never_raises_tags_errors (env : ExecEnv) (t0 t1 : Nat) (s : StateRec) :
    (∃ m, (executeMcpServers env t0 t1 s).messages = some m) ∧
    (∀ e, execFailureReached env s e →
      (executeMcpServers env t0 t1 s).messages =
        some (Msg.ai ("Error executing MCP servers: " ++ e)) ∧
      (executeMcpServers env t0 t1 s).mcp_responses = some (McpResponses.error e)) := by
  constructor
  · simp only [executeMcpServers, executorErrorResult]
    split
    · exact ⟨_, rfl⟩
    · split
      · exact ⟨_, rfl⟩
      · split
        · exact ⟨_, rfl⟩
        · split
          · exact ⟨_, rfl⟩
          · exact ⟨_, rfl⟩
  · intro e hf
    obtain ⟨hcfg, hfail⟩ := hf
    have hcfgE : (buildServerConfig (s.selected_servers.getD ["restaurant"])).isEmpty = false := by
      cases hb : buildServerConfig (s.selected_servers.getD ["restaurant"]) with
      | nil => exact absurd hb hcfg
      | cons a l => rfl
    rcases hfail with hget | ⟨tools, hok, hne, hagent⟩
    · constructor <;> simp [executeMcpServers, executorErrorResult, hcfgE, hget]
    · have htools : tools.isEmpty = false := by
        cases tools with
        | nil => exact absurd rfl hne
        | cons a l => rfl
      constructor <;>
        simp [executeMcpServers, executorErrorResult, hcfgE, hok, htools, hagent]

/-- Witness for C5: discovery raising at a state selecting restaurant. -/
theorem executor_never_raises_tags_errors_witness :
    execFailureReached ⟨Except.error "boom", Except.ok []⟩ sampleSelectedState "boom" ∧
    (executeMcpServers ⟨Except.error "boom", Except.ok []⟩ 0 1 sampleSelectedState).messages =
      some (Msg.ai ("Error executing MCP servers: " ++ "boom")) ∧
    (executeMcpServers ⟨Except.error "boom", Except.ok []⟩ 0 1 sampleSelectedState).mcp_responses =
      some (McpResponses.error "boom") := by
  have hf : execFailureReached ⟨Except.error "boom", Except.ok []⟩ sampleSelectedState "boom" :=
    ⟨by decide, Or.inl rfl⟩
  exact ⟨hf, (executor_never_raises_tags_errors _ 0 1 _).2 "boom" hf⟩

/-- C6.  Unknown selected identifiers contribute nothing to the built
server configuration, and when no selected identifier is configured the
executor returns immediately with the explanatory answer and an empty,
non-error mcp_responses record. -/
theorem executor_skips_unknown_and_empty_selection (selected : List String)
    (env : ExecEnv) (t0 t1 : Nat) (s : StateRec) :
    buildServerConfig selected =
      buildServerConfig (selected.filter (fun d => knownServers.contains d)) ∧
    (buildServerConfig (s.selected_servers.getD ["restaurant"]) = [] →
      (executeMcpServers env t0 t1 s).messages = some (Msg.raw "No valid servers selected") ∧
      (executeMcpServers env t0 t1 s).mcp_responses = some McpResponses.empty ∧
      mcpErrorTruthy (some McpResponses.empty) = false) := by
  constructor
  · exact foldl_addServer_filter selected []
  · intro hcfg
    have hcfgE : (buildServerConfig (s.selected_servers.getD ["restaurant"])).isEmpty = true := by
      rw [hcfg]; rfl
    refine ⟨?_, ?_, rfl⟩ <;> simp [executeMcpServers, hcfgE]

/-- Witness for C6: a selection naming only an unknown identifier. -/
theorem executor_skips_unknown_and_empty_selection_witness :
    buildServerConfig (sampleUnknownState.selected_servers.getD ["restaurant"]) = [] ∧
    (executeMcpServers ⟨Except.ok [], Except.ok []⟩ 0 1 sampleUnknownState).messages =
      some (Msg.raw "No valid servers selected") ∧
    (executeMcpServers ⟨Except.ok [], Except.ok []⟩ 0 1 sampleUnknownState).mcp_responses =
      some McpResponses.empty := by
  have h : buildServerConfig (sampleUnknownState.selected_servers.getD ["restaurant"]) = [] := by
    decide
  have hc :=
    (executor_skips_unknown_and_empty_selection ["bogus"] ⟨Except.ok [], Except.ok []⟩ 0 1
      sampleUnknownState).2 h
  exact ⟨h, hc.1, hc.2.1⟩

/-- C7.  Both merger paths return exactly one AI answer turn and stamp
start and end readings with end not before start; the normal path emits
the extracted content verbatim and only an exception raised during
merging itself produces the explicit error-merging answer. -/
theorem merger_single_message_timing (exc : Option String) (t0 t1 : Nat) (s : StateRec)
    (h : t0 ≤ t1) :
    (∃ c, (responseMergerNode exc t0 t1 s).messages = some (Msg.ai c)) ∧
    (∃ a b, (responseMergerNode exc t0 t1 s).start_time = some a ∧
      (responseMergerNode exc t0 t1 s).end_time = some b ∧ a ≤ b) ∧
    (exc = none →
      (responseMergerNode exc t0 t1 s).messages =
        some (Msg.ai (mergerExtract s.messages))) ∧
    (∀ e, exc = some e →
      (responseMergerNode exc t0 t1 s).messages =
        some (Msg.ai ("Error merging response: " ++ e))) := by
  cases exc with
  | none =>
    refine ⟨⟨mergerExtract s.messages, ?_⟩, ⟨t0, t1, rfl, rfl, h⟩, ?_, ?_⟩
    · simp [responseMergerNode]
    · intro _
      simp [responseMergerNode]
    · intro e he
      cases he
  | some e0 =>
    refine ⟨⟨"Error merging response: " ++ e0, rfl⟩, ⟨t0, t1, rfl, rfl, h⟩, ?_, ?_⟩
    · intro hn
      cases hn
    · intro e he
      injection he with he
      rw [← he]
      rfl

/-- Witness for C7 with the clock hypothesis discharged at 0 and 1. -/
theorem merger_single_message_timing_witness :
    (0 : Nat) ≤ 1 ∧
    (∃ c, (responseMergerNode none 0 1 emptyStateRec).messages = some (Msg.ai c)) :=
  ⟨by decide, (merger_single_message_timing none 0 1 emptyStateRec (by decide)).1⟩

/-- C8.  Running the merger on a state to which its own output was
applied yields a terminal message with the same content: the merge is
idempotent on content. -/
theorem merger_idempotent_content (t0 t1 t2 t3 : Nat) (s : StateRec) :
    (responseMergerNode none t2 t3 (applyUpdate s (responseMergerNode none t0 t1 s))).messages =
      (responseMergerNode none t0 t1 s).messages := by
  have hlast :
      mergerExtract (s.messages ++ [Msg.ai (mergerExtract s.messages)]) =
        mergerExtract s.messages := by
    simp [mergerExtract, List.getLast?_concat, Msg.mergerContent]
  simp [responseMergerNode, applyUpdate, hlast]

/-- The order the model listed domains in, as the unamended claim reads
the parser: split the marker line on commas, strip and lower-case each
token, keep known domain names, and de-duplicate preserving the token
order. -/
def specModelOrderParse (line : String) : List String :=
  pyDedup ((lineTokens line).filter (fun t => knownServers.contains t))

/-- C2 counterexample.  On a marker line naming weather before
restaurant, the code returns the fixed catalog order while the order the
model listed is the reverse: the claimed order-preservation fails at
this input. -/
theorem structured_parse_model_order_counterexample :
    parseServerSelection "RELEVANT_SERVERS: weather, restaurant" "" =
      ["restaurant", "weather"] ∧
    specModelOrderParse "RELEVANT_SERVERS: weather, restaurant" =
      ["weather", "restaurant"] ∧
    (["restaurant", "weather"] : List String) ≠ ["weather", "restaurant"] := by
  decide

/-- C2 amended.  When the structured parse succeeds, the selector result
is exactly the known domains occurring among the comma-split, stripped,
lower-cased tokens of a marker line, de-duplicated and listed in the
fixed catalog order restaurant, parking, weather. -/
theorem structured_parse_catalog_order (analysisText userMessage : String)
    (servers : List String) (h : structuredSelection analysisText = some servers) :
    parseServerSelection analysisText userMessage = servers ∧
    servers.Sublist knownServers ∧ servers ≠ [] ∧
    ∃ line, line ∈ pySplit "\n" analysisText ∧
      pyStartsWith (pyStrip line) relevantServersMarker = true ∧
      ∀ d, d ∈ servers ↔ d ∈ knownServers ∧ (lineTokens line).contains d = true := by
  have hp : parseServerSelection analysisText userMessage = servers := by
    simp [parseServerSelection, h]
  have hlines : findServersInLines (pySplit "\n" analysisText) = some servers := by
    unfold structuredSelection at h
    by_cases hm : substrIn relevantServersMarker analysisText
    · rwa [if_pos hm] at h
    · rw [if_neg hm] at h; cases h
  obtain ⟨hne, line, hmem, hsw, heq⟩ := findServersInLines_spec _ _ hlines
  refine ⟨hp, ?_, hne, line, hmem, hsw, ?_⟩
  · rw [heq]; exact lineServers_sublist line
  · intro d; rw [heq]; exact mem_lineServers line d

/-- Witness for the amended C2 at the counterexample input. -/
theorem structured_parse_catalog_order_witness :
    structuredSelection "RELEVANT_SERVERS: weather, restaurant" =
      some ["restaurant", "weather"] ∧
    parseServerSelection "RELEVANT_SERVERS: weather, restaurant" "" =
      ["restaurant", "weather"] := by
  have h : structuredSelection "RELEVANT_SERVERS: weather, restaurant" =
      some ["restaurant", "weather"] := by decide
  exact ⟨h, (structured_parse_catalog_order _ "" _ h).1⟩
